import Mathlib

/-!
Verification of the tui parameter-resolution engine (yohell/python-tui).

The development shallowly embeds the code of `src/tui/formats.py` (the
`Format` class: `parse`, `parsestr`, `strvalue`, accepted specials) and of
`src/tui/__init__.py` (`Option.parse`, `Option.parsestr`,
`PositionalArgument.parse`, `tui.addposarg`, `tui._parseoptions`,
`tui.parsefiles`, `StrictConfigParser.unusedoptions`).

The dynamically typed Python runtime values are embedded as the inductive
type `PyVal`; operations that the source performs on them (truthiness,
`and`/`or`, `str`, `repr`, `int`, `str.lower`, list append) are embedded as
functions on `PyVal` / `String`.  Methods that mutate `self` or their
argument list are embedded as functions returning the new object state and
the remaining token list; a raised exception is an `Except.error` result.
The `tui` module reads the format objects through attribute access:
`format.default` is a plain class attribute of the checked-in formats
module and is embedded as a field, whereas `format.nargs` names a method
there, so the attribute access of `Parameter.nargs` yields the bound
accessor itself, uncalled — see `OptionR.nargs` and `BoundAccessor`.
-/

/-- Embedded Python runtime value (the value types the parsing engine
actually produces: `None`, booleans, ints, strings and lists thereof). -/
inductive PyVal where
  | none : PyVal
  | bool : Bool → PyVal
  | int : Int → PyVal
  | str : String → PyVal
  | list : List PyVal → PyVal
deriving Repr

/-- Python truthiness: `None`, `False`, `0`, `""` and `[]` are falsy. -/
def pyTruthy : PyVal → Bool
  | PyVal.none => false
  | PyVal.bool b => b
  | PyVal.int z => decide (z ≠ 0)
  | PyVal.str s => !(s == "")
  | PyVal.list l => !l.isEmpty

/-- Python `a and b`: returns `a` if `a` is falsy, else `b`. -/
def pyAnd (a b : PyVal) : PyVal := if pyTruthy a then b else a

/-- Python `a or b`: returns `a` if `a` is truthy, else `b`. -/
def pyOr (a b : PyVal) : PyVal := if pyTruthy a then a else b

/-- The single-quote character, used by the embedding of Python `repr`. -/
def squoteChar : Char := Char.ofNat 39

/-- Python `repr` of an embedded non-list value.  For strings the
embedding covers the common case (no quotes, backslashes or nonprintable
characters in the string): `repr(s)` is `s` wrapped in single quotes.
The parsing engine never nests list values, so the repr of a list inside
a list is left unexpanded. -/
def pyReprAtom : PyVal → String
  | PyVal.none => "None"
  | PyVal.bool true => "True"
  | PyVal.bool false => "False"
  | PyVal.int z => toString z
  | PyVal.str s => String.singleton squoteChar ++ s ++ String.singleton squoteChar
  | PyVal.list _ => "[...]"

/-- Python `repr` of an embedded value. -/
def pyRepr : PyVal → String
  | PyVal.list l => "[" ++ String.intercalate ", " (l.map pyReprAtom) ++ "]"
  | v => pyReprAtom v

/-- Python `str` of an embedded value (`str` of a string is the string
itself, otherwise it agrees with `repr` on these value types). -/
def pyStr : PyVal → String
  | PyVal.str s => s
  | v => pyRepr v

/-- Python `str.lower` restricted to ASCII (the source only lowercases
the flag literals `1/Yes/True/On/0/No/False/Off`). -/
def pyCharLower (c : Char) : Char :=
  if 'A' ≤ c && c ≤ 'Z' then Char.ofNat (c.toNat + 32) else c

/-- Python `s.lower()` on the embedded strings. -/
def pyLower (s : String) : String := String.mk (s.data.map pyCharLower)

/-- Numeric value of a nonempty all-digit character list. -/
def digitsVal (ds : List Char) : Option Nat :=
  if ds ≠ [] ∧ ds.all Char.isDigit then
    some (ds.foldl (fun acc c => acc * 10 + (c.toNat - 48)) 0)
  else
    Option.none

/-- Python `int(s)` on decimal string literals: optional surrounding
whitespace, an optional sign, then decimal digits (leading zeros allowed,
`int("007") = 7`). -/
def pyIntParse (s : String) : Option Int :=
  let t := (s.data.dropWhile Char.isWhitespace).reverse.dropWhile Char.isWhitespace |>.reverse
  match t with
  | '-' :: ds => (digitsVal ds).map (fun n => -(n : Int))
  | '+' :: ds => (digitsVal ds).map (fun n => (n : Int))
  | ds => (digitsVal ds).map (fun n => (n : Int))

/-- Errors raised in `src/tui/formats.py`. -/
inductive FmtErr where
  | badNumberOfArgumentsError (required supplied : Nat)
  | badArgumentError (argument details : String)
  | indexError
deriving Repr, DecidableEq

/-- Embedding of a `formats.Format` object (`src/tui/formats.py`,
`Format.__init__`): `iNArgs` is the argument count, `lsAcceptedSpecials`
the accepted special literals (kept after the `acceptemptystring`
processing of `__init__`), `cParser` the coercion callback (an
`Except.error` result embeds the callback raising), `cParser0` the value
the callback returns when called with no arguments (the `nargs == 0` case,
used by the `Flag` format whose callback is `lambda: commandline_value`
and never raises), `cPresenter` the presenter callback, and `default` the
class-level default value. -/
structure Fmt where
  iNArgs : Nat
  lsAcceptedSpecials : List String
  cParser : String → Except String PyVal
  cParser0 : PyVal
  cPresenter : PyVal → String
  default : PyVal

/-- The `nargs > 1` loop of `Format.parse` (`formats.py` lines 234-244):
pops one token per iteration; a token found among the accepted specials is
appended raw, and — exactly as in the source, which lacks an `else` — the
parser callback is then applied to the token anyway.  Returns the result
and the remaining token list (the list is mutated even when an error is
raised after some pops). -/
def fmtParseLoop (f : Fmt) : Nat → List String → List PyVal →
    (Except FmtErr (List PyVal)) × List String
  | 0, args, acc => (Except.ok acc, args)
  | _ + 1, [], _ => (Except.error FmtErr.indexError, [])
  | n + 1, v :: rest, acc =>
    let acc := if v ∈ f.lsAcceptedSpecials then acc ++ [PyVal.str v] else acc
    match f.cParser v with
    | Except.error e => (Except.error (FmtErr.badArgumentError v e), rest)
    | Except.ok x => fmtParseLoop f n rest (acc ++ [x])

/-- Embedding of `Format.parse` (`formats.py` lines 206-244).  Returns the
parse result together with the remaining token list (Python mutates the
list in place, also on the error paths).  The `indexError` clauses embed
`args.pop(0)` on an empty list; they are unreachable because the length
check comes first. -/
def Fmt.parse (f : Fmt) (args : List String) : (Except FmtErr PyVal) × List String :=
  if args.length < f.iNArgs then
    (Except.error (FmtErr.badNumberOfArgumentsError f.iNArgs args.length), args)
  else if f.iNArgs = 0 then
    (Except.ok f.cParser0, args)
  else if f.iNArgs = 1 then
    match args with
    | [] => (Except.error FmtErr.indexError, [])
    | v :: rest =>
      if v ∈ f.lsAcceptedSpecials then (Except.ok (PyVal.str v), rest)
      else
        match f.cParser v with
        | Except.error e => (Except.error (FmtErr.badArgumentError v e), rest)
        | Except.ok x => (Except.ok x, rest)
  else
    match fmtParseLoop f f.iNArgs args [] with
    | (Except.ok vs, rest) => (Except.ok (PyVal.list vs), rest)
    | (Except.error e, rest) => (Except.error e, rest)

/-- Lexer mode for the embedding of `shlex.split`. -/
inductive LexMode where
  | normal
  | insingle
  | indouble
deriving Repr, DecidableEq

/-- Modelled from the Python standard library `shlex.split(s, comments=True)`
(an external collaborator of the source), restricted to the constructs the
config values in this development use: whitespace-separated words, single
and double quoting, and an unquoted hash starting a comment.  Backslash
escapes are not modelled. -/
def shlexAux : List Char → LexMode → Option String → List String
  | [], _, cur =>
    match cur with
    | some w => [w]
    | Option.none => []
  | c :: cs, LexMode.normal, cur =>
    if c.isWhitespace then
      match cur with
      | some w => w :: shlexAux cs LexMode.normal Option.none
      | Option.none => shlexAux cs LexMode.normal Option.none
    else if c = '#' then
      match cur with
      | some w => [w]
      | Option.none => []
    else if c = squoteChar then
      shlexAux cs LexMode.insingle (some (cur.getD ""))
    else if c = '"' then
      shlexAux cs LexMode.indouble (some (cur.getD ""))
    else
      shlexAux cs LexMode.normal (some ((cur.getD "").push c))
  | c :: cs, LexMode.insingle, cur =>
    if c = squoteChar then shlexAux cs LexMode.normal cur
    else shlexAux cs LexMode.insingle (some ((cur.getD "").push c))
  | c :: cs, LexMode.indouble, cur =>
    if c = '"' then shlexAux cs LexMode.normal cur
    else shlexAux cs LexMode.indouble (some ((cur.getD "").push c))

/-- `shlex.split(argstr, comments=True)` as used by `Format.parsestr`. -/
def shlexSplit (s : String) : List String := shlexAux s.data LexMode.normal Option.none

/-- Embedding of `Format.parsestr` (`formats.py` lines 248-287): splits the
config string lexically; an empty split raises the argument-count error
with required 1; `nargs == 0` formats read one boolean-ish literal
(case-insensitive); otherwise the token count must equal `nargs` exactly
and the tokens are fed to `Format.parse`. -/
def Fmt.parsestr (f : Fmt) (argstr : String) : Except FmtErr PyVal :=
  let args := shlexSplit argstr
  if args.length = 0 then
    Except.error (FmtErr.badNumberOfArgumentsError 1 0)
  else if f.iNArgs = 0 then
    match args with
    | [] => Except.error FmtErr.indexError
    | sValue :: _ =>
      let v := pyLower sValue
      if v ∈ ["1", "yes", "true", "on"] then Except.ok (PyVal.bool true)
      else if v ∈ ["0", "no", "false", "off"] then Except.ok (PyVal.bool false)
      else Except.error (FmtErr.badArgumentError sValue
        "Allowed values include True and False, among others")
  else if args.length ≠ f.iNArgs then
    Except.error (FmtErr.badNumberOfArgumentsError f.iNArgs args.length)
  else
    (f.parse args).fst

/-- Embedding of `formats.default_presenter` (`formats.py` lines 92-97):
`str(value)`, quoted with `repr` when it contains whitespace. -/
def default_presenter (value : PyVal) : String :=
  let s := pyStr value
  if s.data.any Char.isWhitespace then pyRepr (PyVal.str s) else s

/-- Embedding of `Format.strvalue` (`formats.py` lines 300-315).  For
`nargs > 1` the value must be a list (`map` over a non-list raises in
Python, embedded as `Option.none`); otherwise the presenter callback is
applied directly. -/
def Fmt.strvalue (f : Fmt) (value : PyVal) : Option String :=
  if 1 < f.iNArgs then
    match value with
    | PyVal.list l => some (String.intercalate " " (l.map f.cPresenter))
    | _ => Option.none
  else
    some (f.cPresenter value)

/-! ### Concrete formats used by the claims -/

/-- Embedding of `formats.Flag` (`formats.py` lines 325-345): `nargs = 0`,
callback `lambda: commandline_value`. -/
def flagFmt (commandline_value : PyVal) : Fmt :=
  { iNArgs := 0
    lsAcceptedSpecials := []
    cParser := fun _ => Except.error "flag parser takes no argument"
    cParser0 := commandline_value
    cPresenter := default_presenter
    default := PyVal.bool false }

/-- Embedding of `formats.Int` (`formats.py` lines 349-368): one argument,
parser `int(argument)` raising `cannot transform it to integer`. -/
def intFmt : Fmt :=
  { iNArgs := 1
    lsAcceptedSpecials := []
    cParser := fun s =>
      match pyIntParse s with
      | some z => Except.ok (PyVal.int z)
      | Option.none => Except.error "cannot transform it to integer"
    cParser0 := PyVal.none
    cPresenter := default_presenter
    default := PyVal.int 0 }

/-- Embedding of `formats.String` (`formats.py` lines 664-675): one
argument, parser `str` (the identity on an already-string token). -/
def stringFmt : Fmt :=
  { iNArgs := 1
    lsAcceptedSpecials := []
    cParser := fun s => Except.ok (PyVal.str s)
    cParser0 := PyVal.none
    cPresenter := default_presenter
    default := PyVal.str "" }

/-- A two-argument `Int`-style format with accepted specials (the shape
`Format.__init__` produces for `nargs = 2`, e.g.
`Format('IntPair', int_parser, nargs=2, acceptedspecials='-')`). -/
def intPairFmt (specials : List String) : Fmt :=
  { iNArgs := 2
    lsAcceptedSpecials := specials
    cParser := intFmt.cParser
    cParser0 := PyVal.none
    cPresenter := default_presenter
    default := PyVal.none }

/-! ### The tui module: errors, Option, PositionalArgument -/

/-- Errors raised in `src/tui/__init__.py` (classes at lines 306-367),
plus the Python runtime errors the module can raise on its own
(`TypeError` from calling a bool attribute, `KeyError` from an unknown
abbreviation-dict key, `AttributeError` from `.append` on a non-list). -/
inductive TuiErr where
  | invalidOption (name : String)
  | optionRecurrenceError (name : String)
  | badAbbreviationBlock (abbreviation block details : String)
  | badNumberOfArguments (name : String) (required supplied : Nat)
  | badArgument (value name details : String)
  | reservedOptionError (message : String)
  | pyTypeError (message : String)
  | pyKeyError (key : String)
  | pyAttributeError (message : String)
  | pyIndexError
deriving Repr, DecidableEq

/-- Embedding of a `tui.Option` object (`src/tui/__init__.py` lines
586-690): static configuration (`name`, `abbreviation`, `recurring`,
`reserved`, format) plus the mutable state (`value`, `location`). -/
structure OptionR where
  name : String
  abbreviation : Option String := Option.none
  recurring : Bool := false
  reserved : Bool := false
  fmt : Fmt
  value : PyVal
  location : String := "Builtin default."

/-- `Option.__init__` (lines 589-642): the default value is the explicit
`default` argument when given, else the empty list for recurring options,
else the default of the format; `location` starts as the builtin-default
label. -/
def mkOption (name : String) (fmt : Fmt) (abbr : Option String) (deflt : Option PyVal)
    (recurring reserved : Bool) : OptionR :=
  { name := name
    abbreviation := abbr
    recurring := recurring
    reserved := reserved
    fmt := fmt
    value :=
      match deflt with
      | some v => v
      | Option.none => if recurring then PyVal.list [] else fmt.default
    location := "Builtin default." }

/-- The value of the Python expression `self.format.nargs`: in
`src/tui/formats.py` `nargs` is a method (lines 317-318), so the
attribute access yields the bound accessor itself, uncalled; `callResult`
records what calling it would return (`iNArgs`). -/
inductive BoundAccessor where
  | boundMethod (callResult : Nat)

/-- Python 2 comparison `x != 0` where `x` is a bound method: an int and
a method are never equal, so the comparison is always true, whatever the
argument count of the format would be. -/
def BoundAccessor.pyNeZero : BoundAccessor → Bool
  | BoundAccessor.boundMethod _ => true

/-- `Parameter.nargs` (`src/tui/__init__.py` line 569) is
`property(lambda self: self.format.nargs)`: it returns the `nargs`
accessor of the format WITHOUT calling it, so reading the property gives
a bound method, not the argument count. -/
def OptionR.nargs (o : OptionR) : BoundAccessor := BoundAccessor.boundMethod o.fmt.iNArgs

/-- What the `except` clauses of `Option.parse`, `Option.parsestr` and
`PositionalArgument.parse` (lines 658-661, 682-685, 763-766) actually do
with a propagating exception: the clauses name
`formats.BadNumberOfArguments` and `formats.BadArgument`, but no such
attributes exist in `src/tui/formats.py` (the classes there are
`BadNumberOfArgumentsError` and `BadArgumentError`).  Python 2 evaluates
the clause expression only when an exception propagates, so the first
clause raises `AttributeError` and replaces the format error — whichever
format error was raised, and regardless of the name the user wrote; the
intended re-raise carrying the used name and the counts or the offending
token is unreachable.  Both arguments are therefore discarded, as the
source discards them. -/
def liftFmtErr (_usedname : String) (_e : FmtErr) : TuiErr :=
  TuiErr.pyAttributeError "module object has no attribute BadNumberOfArguments"

/-- Embedding of `Option.parse` (`src/tui/__init__.py` lines 644-666):
the format consumes tokens from `argv`; on success a recurring option
appends to its value list (`.append` on a non-list raises
`AttributeError`) and a non-recurring option overwrites it, and
`location` is overwritten; on a format error the except clause itself
raises `AttributeError` (see `liftFmtErr`) and the option state is left
as it was (the result always carries the option
state after the call and the remaining token list — Python mutates the
token list in place, also on error paths). -/
def OptionR.parse (o : OptionR) (argv : List String) (usedname location : String) :
    (Except TuiErr Unit) × OptionR × List String :=
  let (r, argv') := o.fmt.parse argv
  match r with
  | Except.error e => (Except.error (liftFmtErr usedname e), o, argv')
  | Except.ok value =>
    if o.recurring then
      match o.value with
      | PyVal.list l =>
        (Except.ok (), { o with value := PyVal.list (l ++ [value]), location := location }, argv')
      | _ => (Except.error (TuiErr.pyAttributeError "append"), o, argv')
    else
      (Except.ok (), { o with value := value, location := location }, argv')

/-- Embedding of `Option.parsestr` (`src/tui/__init__.py` lines 668-690):
identical to `Option.parse` but fed a single config-file string which the
format splits lexically; note that a recurring option appends here too. -/
def OptionR.parsestr (o : OptionR) (argsstr usedname location : String) :
    (Except TuiErr Unit) × OptionR :=
  match o.fmt.parsestr argsstr with
  | Except.error e => (Except.error (liftFmtErr usedname e), o)
  | Except.ok value =>
    if o.recurring then
      match o.value with
      | PyVal.list l =>
        (Except.ok (), { o with value := PyVal.list (l ++ [value]), location := location })
      | _ => (Except.error (TuiErr.pyAttributeError "append"), o)
    else
      (Except.ok (), { o with value := value, location := location })

/-- Embedding of a `tui.PositionalArgument` object (`src/tui/__init__.py`
lines 697-740). -/
structure PosArg where
  name : String
  displayname : String
  recurring : Bool := false
  optional : Bool := false
  fmt : Fmt
  value : PyVal := PyVal.none

/-- The loop body `while argv: self.value.append(self.format.parse(argv))`
of `PositionalArgument.parse` (`src/tui/__init__.py` lines 761-762),
fuelled by the length of the token list.  Each successful iteration of a
format with `nargs >= 1` strictly shortens the list, so that much fuel is
exact; a format with `nargs == 0` consumes nothing and the Python loop
never terminates — `Option.none` embeds that divergence.  On a format
error the values accumulated so far are kept (Python has already stored
them in `self.value`). -/
def posParseLoop (f : Fmt) : Nat → List String → List PyVal →
    Option ((Except FmtErr Unit) × List PyVal × List String)
  | _, [], acc => some (Except.ok (), acc, [])
  | 0, _ :: _, _ => Option.none
  | fuel + 1, tok :: rest, acc =>
    let (r, argv') := f.parse (tok :: rest)
    match r with
    | Except.error e => some (Except.error e, acc, argv')
    | Except.ok v => posParseLoop f fuel argv' (acc ++ [v])

/-- Embedding of `PositionalArgument.parse` (`src/tui/__init__.py` lines
742-766).  On an empty token list an optional argument stores the value of
the Python expression `self.recurring and [] or None` and returns;
otherwise one value is consumed via the format, and a recurring argument
keeps consuming until the token list is exhausted (`Option.none` embeds
the divergence of that loop for a format that consumes no tokens).
A format error makes the except clause raise `AttributeError` (see
`liftFmtErr`). -/
def PosArg.parse (p : PosArg) (argv : List String) :
    Option ((Except TuiErr Unit) × PosArg × List String) :=
  if argv.isEmpty && p.optional then
    some (Except.ok (),
      { p with value := pyOr (pyAnd (PyVal.bool p.recurring) (PyVal.list [])) PyVal.none },
      argv)
  else
    let (r, argv') := p.fmt.parse argv
    match r with
    | Except.error e => some (Except.error (liftFmtErr p.displayname e), p, argv')
    | Except.ok v =>
      if !p.recurring then
        some (Except.ok (), { p with value := v }, argv')
      else
        match posParseLoop p.fmt argv'.length argv' [v] with
        | Option.none => Option.none
        | some (Except.ok (), acc, argv'') =>
          some (Except.ok (), { p with value := PyVal.list acc }, argv'')
        | some (Except.error e, acc, argv'') =>
          some (Except.error (liftFmtErr p.displayname e),
            { p with value := PyVal.list acc }, argv'')

/-- Embedding of `tui.addposarg` (`src/tui/__init__.py` lines 1154-1166):
if the list is nonempty, a recurring last element or a required argument
after an optional last element is rejected with a `ValueError` before the
append; otherwise the argument is appended. -/
def addposarg (l : List PosArg) (p : PosArg) : Except String (List PosArg) :=
  match l.getLast? with
  | Option.none => Except.ok (l ++ [p])
  | some last =>
    if last.recurring then
      Except.error "recurring positional arguments must be last"
    else if last.optional && !p.optional then
      Except.error "required positional arguments must precede optional ones"
    else
      Except.ok (l ++ [p])

/-- The positional-argument lists reachable through successful `addposarg`
calls starting from the empty list a fresh `tui` instance holds. -/
inductive ReachablePosArgs : List PosArg → Prop where
  | nil : ReachablePosArgs []
  | step {l : List PosArg} {p : PosArg} {l' : List PosArg} :
      ReachablePosArgs l → addposarg l p = Except.ok l' → ReachablePosArgs l'

/-- Registration invariant: no positional argument follows one marked
recurring (an element with a successor is not recurring). -/
def noneFollowsRecurring : List PosArg → Prop
  | [] => True
  | a :: rest => (rest ≠ [] → a.recurring = false) ∧ noneFollowsRecurring rest

/-- Registration invariant: no required positional argument follows one
marked optional (everything after an optional element is optional). -/
def noRequiredAfterOptional : List PosArg → Prop
  | [] => True
  | a :: rest => (a.optional = true → ∀ b ∈ rest, b.optional = true) ∧ noRequiredAfterOptional rest

/-! ### The argv resolver (`tui._parseoptions`) -/

/-- `self.options[name]` — the long-name dict of the `tui` object,
embedded as a lookup over the registered options (registration enforces
unique names). -/
def findOption (opts : List OptionR) (name : String) : Option OptionR :=
  opts.find? (fun o => o.name == name)

/-- `self.abbreviations[abbreviation]` — the abbreviation dict, embedded
as a lookup over the registered options. -/
def findAbbrev (opts : List OptionR) (a : String) : Option OptionR :=
  opts.find? (fun o => o.abbreviation == some a)

/-- Storing a mutated option object back: both dicts alias the same
object, so an update by long name is what the in-place mutation in
Python does (names are unique by registration). -/
def setOption (opts : List OptionR) (o' : OptionR) : List OptionR :=
  opts.map (fun o => if o.name == o'.name then o' else o)

/-- Python `s.startswith(p)` on the embedded strings. -/
def pyStartswith (s p : String) : Bool := p.data.isPrefixOf s.data

/-- Python `s[n:]` for a nonnegative `n` on the embedded strings. -/
def pyDrop (s : String) (n : Nat) : String := String.mk (s.data.drop n)

/-- The validation pass over `block[:-1]` (`src/tui/__init__.py` lines
1314-1317): the source intends every character but the last to map to an
`nargs == 0` option, but the test compares the uncalled `nargs` accessor
with an int (see `OptionR.nargs`), which is always unequal, so every
non-last character raises `BadAbbreviationBlock`; the dict lookup itself
raises `KeyError` for an unregistered abbreviation.  The recorded block
string is the token minus its leading dash, as in the source. -/
def validateBlockChars (opts : List OptionR) (blockStr : String) :
    List Char → Except TuiErr Unit
  | [] => Except.ok ()
  | c :: cs =>
    match findAbbrev opts (String.singleton c) with
    | Option.none => Except.error (TuiErr.pyKeyError (String.singleton c))
    | some option =>
      if (option.nargs).pyNeZero then
        Except.error (TuiErr.badAbbreviationBlock (String.singleton c) blockStr
          "options that require value arguments must be last in abbreviation blocks")
      else
        validateBlockChars opts blockStr cs

/-- The processing pass over an abbreviation block (`src/tui/__init__.py`
lines 1318-1325): each character is looked up, checked against the
recurrence list (which records the option objects seen; names are unique
so the embedding records names) and parsed; note the recurrence error
here carries the long name of the option. -/
def parseBlock (location : String) : List Char → List OptionR → List String → List String →
    (Except TuiErr (List OptionR × List String)) × List String
  | [], opts, observed, argv => (Except.ok (opts, observed), argv)
  | c :: cs, opts, observed, argv =>
    match findAbbrev opts (String.singleton c) with
    | Option.none => (Except.error (TuiErr.pyKeyError (String.singleton c)), argv)
    | some option =>
      let chk : Except TuiErr (List String) :=
        if !option.recurring then
          if option.name ∈ observed then Except.error (TuiErr.optionRecurrenceError option.name)
          else Except.ok (observed ++ [option.name])
        else Except.ok observed
      match chk with
      | Except.error e => (Except.error e, argv)
      | Except.ok observed' =>
        let (r, o', argv') := option.parse argv ("-" ++ String.singleton c) location
        match r with
        | Except.error e => (Except.error e, argv')
        | Except.ok () => parseBlock location cs (setOption opts o') observed' argv'

/-- The `while argv:` loop of `tui._parseoptions` (`src/tui/__init__.py`
lines 1294-1328), fuelled by the length of the token list: every
iteration that does not leave the loop pops the leading token before
doing anything else and option parsing only removes further tokens, so
`argv.length` iterations always suffice and the fuel-exhausted clause
(which returns the loop-exit state) is unreachable from
`tuiParseoptions`.  The result is the final registered-option state and
the remaining token list, or the first error raised. -/
def parseoptionsLoop (location : String) :
    Nat → List OptionR → List String → List String →
    (Except TuiErr (List OptionR)) × List String
  | 0, opts, _, argv => (Except.ok opts, argv)
  | _ + 1, opts, _, [] => (Except.ok opts, [])
  | fuel + 1, opts, observed, tok :: rest =>
    if pyStartswith tok "--" then
      let name := pyDrop tok 2
      if name == "" then (Except.ok opts, rest)
      else
        match findOption opts name with
        | Option.none => (Except.error (TuiErr.invalidOption name), rest)
        | some option =>
          let chk : Except TuiErr (List String) :=
            if !option.recurring then
              if option.name ∈ observed then Except.error (TuiErr.optionRecurrenceError name)
              else Except.ok (observed ++ [option.name])
            else Except.ok observed
          match chk with
          | Except.error e => (Except.error e, rest)
          | Except.ok observed' =>
            let (r, o', argv') := option.parse rest name location
            match r with
            | Except.error e => (Except.error e, argv')
            | Except.ok () => parseoptionsLoop location fuel (setOption opts o') observed' argv'
    else if pyStartswith tok "-" then
      if tok == "-" then (Except.ok opts, tok :: rest)
      else
        let block := pyDrop tok 1
        match validateBlockChars opts block block.data.dropLast with
        | Except.error e => (Except.error e, rest)
        | Except.ok () =>
          match parseBlock location block.data opts observed rest with
          | (Except.error e, argv') => (Except.error e, argv')
          | (Except.ok (opts', observed'), argv') =>
            parseoptionsLoop location fuel opts' observed' argv'
    else
      (Except.ok opts, tok :: rest)

/-- Embedding of `tui._parseoptions` (`src/tui/__init__.py` lines
1285-1328): the recurrence list `observed` starts empty on every call. -/
def tuiParseoptions (opts : List OptionR) (argv : List String) (location : String) :
    (Except TuiErr (List OptionR)) × List String :=
  parseoptionsLoop location argv.length opts [] argv

/-! ### The config-file resolver (`StrictConfigParser.unusedoptions`,
`tui.parsefiles`) -/

/-- A parsed config file as `StrictConfigParser` exposes it to
`parsefiles`: ordered sections of ordered key/raw-value pairs.  The
stdlib `ConfigParser` machinery (file reading, `[DEFAULT]` merging,
percent interpolation on `get`) is an external collaborator and is not
re-modelled; the raw values are what `get(section, option, raw=True)`
returns, and the sections given here contain no percent references that
`get` would expand. -/
abbrev CfgFile := List (String × List (String × String))

/-- `parser.has_section(section)`. -/
def hasSection (f : CfgFile) (s : String) : Bool := f.any (fun p => p.fst == s)

/-- `parser.options(section)`: the keys of the section, in order. -/
def sectionKeys (f : CfgFile) (s : String) : List String :=
  match f.find? (fun p => p.fst == s) with
  | some p => p.snd.map (fun kv => kv.fst)
  | Option.none => []

/-- `parser.get(section, option, raw=True)`. -/
def getRaw (f : CfgFile) (s k : String) : Option String :=
  match f.find? (fun p => p.fst == s) with
  | some p => (p.snd.find? (fun kv => kv.fst == k)).map (fun kv => kv.snd)
  | Option.none => Option.none

/-- Substring test, embedding the Python `x in y` operator on strings. -/
def strContainsSub (s sub : String) : Bool :=
  (List.range (s.data.length + 1)).any (fun i => sub.data.isPrefixOf (s.data.drop i))

/-- The percent reference `"%(" + option + ")s"` built by
`unusedoptions`. -/
def fmtRefName (o : String) : String := "%(" ++ o ++ ")s"

/-- Embedding of `StrictConfigParser.unusedoptions` (`src/tui/__init__.py`
lines 419-438): for the first present section among `sections`, the keys
that are not used to percent-format any raw value of that section; the
`return` sits inside the `for` loop, so later sections are never
examined, and if no section is present the function falls through and
returns Python `None` (embedded as `Option.none`).  The source collects
the keys into a `set`; the embedding keeps them in section order, which
has the same membership. -/
def unusedoptions (f : CfgFile) : List String → Option (List String)
  | [] => Option.none
  | s :: rest =>
    if hasSection f s then
      let options := sectionKeys f s
      let raw_values := options.filterMap (fun o => getRaw f s o)
      some (options.filter
        (fun o => !(raw_values.any (fun rv => strContainsSub rv (fmtRefName o)))))
    else unusedoptions f rest

/-- The `for name in parser.options(section):` loop of `tui.parsefiles`
(`src/tui/__init__.py` lines 1277-1283).  For a key naming a registered
option the source evaluates `self.options[name].reserved()` — but
`Option.reserved` is a plain bool attribute (line 636), so calling it
raises `TypeError: 'bool' object is not callable` before anything else
can happen; keys naming no registered option are simply skipped by this
loop.  (The `ReservedOptionError` branch below that line, which would
also format its message with the stale loop variable `unused`, and the
`parsestr` call are unreachable in the source.) -/
def parsefilesNames (ui : List OptionR) : List String → Except TuiErr (List OptionR)
  | [] => Except.ok ui
  | name :: rest =>
    match findOption ui name with
    | Option.none => parsefilesNames ui rest
    | some _ => Except.error (TuiErr.pyTypeError "bool object is not callable")

/-- One `(file, section)` step of `tui.parsefiles` (`src/tui/__init__.py`
lines 1270-1283): absent sections are skipped; the keys unused for
formatting are checked first, and the first one that names no registered
option and is not ignore-listed raises `InvalidOption`; then the key loop
runs. -/
def parseFileSection (ui : List OptionR) (ignore : List String) (file : CfgFile)
    (sec : String) : Except TuiErr (List OptionR) :=
  if !hasSection file sec then Except.ok ui
  else
    let unusedL := (unusedoptions file [sec]).getD []
    match unusedL.find? (fun u => (findOption ui u).isNone && !(ignore.contains u)) with
    | some u => Except.error (TuiErr.invalidOption u)
    | Option.none => parsefilesNames ui (sectionKeys file sec)

/-- The section loop of `tui.parsefiles` for one file. -/
def parseFileSections (ui : List OptionR) (ignore : List String) (file : CfgFile) :
    List String → Except TuiErr (List OptionR)
  | [] => Except.ok ui
  | s :: rest =>
    match parseFileSection ui ignore file s with
    | Except.error e => Except.error e
    | Except.ok ui' => parseFileSections ui' ignore file rest

/-- Embedding of `tui.parsefiles` (`src/tui/__init__.py` lines 1251-1283):
files in caller order, sections in caller order, stopping at the first
error. -/
def parsefiles (ui : List OptionR) (ignore : List String) (sections : List String) :
    List CfgFile → Except TuiErr (List OptionR)
  | [] => Except.ok ui
  | f :: rest =>
    match parseFileSections ui ignore f sections with
    | Except.error e => Except.error e
    | Except.ok ui' => parsefiles ui' ignore sections rest

/-! ### Concrete registries used by the claims -/

/-- Registry for the abbreviation-block claim: `a` and `b` are flag
options (`nargs == 0`) with arbitrary command-line values, `c` is an
option with an arbitrary one-argument format. -/
def abbrevReg (pa pb : PyVal) (fc : Fmt) : List OptionR :=
  [ mkOption "alpha" (flagFmt pa) (some "a") Option.none false false,
    mkOption "beta" (flagFmt pb) (some "b") Option.none false false,
    mkOption "gamma" fc (some "c") Option.none false false ]

/-- A one-option registry holding a non-recurring `Int` option `foo`
whose current value and provenance are arbitrary (e.g. previously set
from a config file). -/
def fooReg (v0 : PyVal) (loc0 : String) : List OptionR :=
  [ { name := "foo", abbreviation := Option.none, recurring := false, reserved := false,
      fmt := intFmt, value := v0, location := loc0 } ]

/-- A recurring `String` option as `makeoption` with format `String` and
`recurring` set builds it (default value `[]`). -/
def tagOpt : OptionR := mkOption "tag" stringFmt Option.none Option.none true false

/-- The option state after `parsefiles` would feed `tagOpt` the config
value `a` from a first config source. -/
def tagAfterFirst : OptionR := (tagOpt.parsestr "a" "tag" "file1 [sec]").snd

/-- Registry for the parsefiles claim: a reserved flag option. -/
def c4Reg : List OptionR :=
  [ mkOption "flag" (flagFmt (PyVal.bool true)) (some "f") Option.none false true ]

/-- A config file with one section `sec` assigning the registered
reserved option `flag`. -/
def c4File : CfgFile := [("sec", [("flag", "yes")])]

/-- A config file with one section `sec` whose only key names no
registered option and is not used for formatting. -/
def c4FileUnknown : CfgFile := [("sec", [("nosuch", "1")])]

/-- A non-recurring `Int` option used to witness error propagation. -/
def numOpt : OptionR := mkOption "num" intFmt Option.none Option.none false false

/-- An optional recurring positional argument (format `String`), with a
sentinel current value so the assignment performed on an empty token
list is visible. -/
def c6Pos : PosArg :=
  { name := "files", displayname := "FILES", recurring := true, optional := true,
    fmt := stringFmt, value := PyVal.str "sentinel" }

/-- A required, non-recurring positional argument. -/
def reqPos : PosArg :=
  { name := "infile", displayname := "INFILE", recurring := false, optional := false,
    fmt := stringFmt, value := PyVal.none }

/-- An optional, non-recurring positional argument. -/
def optPos : PosArg :=
  { name := "outfile", displayname := "OUTFILE", recurring := false, optional := true,
    fmt := stringFmt, value := PyVal.none }

/-- A two-argument format with `-` accepted as a special literal and an
integer parser that rejects `-`. -/
def c7Fmt : Fmt := intPairFmt ["-"]

/-- A two-argument `String`-style format with `-` accepted as a special
literal and a parser that accepts every token. -/
def strPairFmt : Fmt :=
  { iNArgs := 2
    lsAcceptedSpecials := ["-"]
    cParser := fun s => Except.ok (PyVal.str s)
    cParser0 := PyVal.none
    cPresenter := default_presenter
    default := PyVal.none }

/-! ## Helper lemmas -/

/-- Appending to a positional-argument list preserves the
no-follower-of-recurring invariant exactly when the current last element
is not recurring. -/
theorem nfr_snoc (p : PosArg) : ∀ (l : List PosArg),
    noneFollowsRecurring (l ++ [p]) ↔
      (noneFollowsRecurring l ∧ ∀ a, l.getLast? = some a → a.recurring = false)
  | [] => by simp [noneFollowsRecurring]
  | a :: l => by
    have ih := nfr_snoc p l
    constructor
    · intro h
      have h' : ((l ++ [p]) ≠ [] → a.recurring = false) ∧ noneFollowsRecurring (l ++ [p]) := h
      obtain ⟨h2a, h2b⟩ := ih.mp h'.2
      refine ⟨⟨fun _ => h'.1 (by simp), h2a⟩, ?_⟩
      intro x hx
      cases l with
      | nil =>
        simp only [List.getLast?_singleton, Option.some.injEq] at hx
        subst hx
        exact h'.1 (by simp)
      | cons b l' =>
        rw [List.getLast?_cons_cons] at hx
        exact h2b x hx
    · rintro ⟨hfr, hlast⟩
      have hfr' : (l ≠ [] → a.recurring = false) ∧ noneFollowsRecurring l := hfr
      refine ⟨fun _ => ?_, ih.mpr ⟨hfr'.2, ?_⟩⟩
      · cases l with
        | nil => exact hlast a (by simp)
        | cons b l' => exact hfr'.1 (by simp)
      · intro x hx
        cases l with
        | nil => cases hx
        | cons b l' =>
          exact hlast x (by rw [List.getLast?_cons_cons]; exact hx)

/-- Appending to a positional-argument list preserves the
no-required-after-optional invariant exactly when every already-optional
element is followed only by optional ones and the appended argument is
optional whenever some element is. -/
theorem nrao_snoc (p : PosArg) : ∀ (l : List PosArg),
    noRequiredAfterOptional (l ++ [p]) ↔
      (noRequiredAfterOptional l ∧ ∀ a ∈ l, a.optional = true → p.optional = true)
  | [] => by simp [noRequiredAfterOptional]
  | a :: l => by
    have ih := nrao_snoc p l
    constructor
    · intro h
      have h' : (a.optional = true → ∀ b ∈ l ++ [p], b.optional = true) ∧
          noRequiredAfterOptional (l ++ [p]) := h
      obtain ⟨h2a, h2b⟩ := ih.mp h'.2
      refine ⟨⟨fun ho b hb => h'.1 ho b (List.mem_append_left _ hb), h2a⟩, ?_⟩
      intro x hx ho
      rcases List.mem_cons.mp hx with rfl | hx'
      · exact h'.1 ho p (List.mem_append_right _ (by simp))
      · exact h2b x hx' ho
    · rintro ⟨hno, hmem⟩
      have hno' : (a.optional = true → ∀ b ∈ l, b.optional = true) ∧
          noRequiredAfterOptional l := hno
      refine ⟨?_, ih.mpr ⟨hno'.2, fun x hx ho => hmem x (List.mem_cons_of_mem _ hx) ho⟩⟩
      intro ho b hb
      rcases List.mem_append.mp hb with hb' | hb'
      · exact hno'.1 ho b hb'
      · rcases List.mem_singleton.mp hb' with rfl
        exact hmem a (List.mem_cons_self _ _) ho

/-- In a list satisfying the no-required-after-optional invariant, the
presence of an optional element forces the last element to be optional. -/
theorem nrao_last : ∀ (l : List PosArg), noRequiredAfterOptional l → ∀ (a : PosArg),
    a ∈ l → a.optional = true →
    ∃ last, l.getLast? = some last ∧ last.optional = true
  | [], _, a, ha, _ => absurd ha (List.not_mem_nil a)
  | b :: l, h, a, ha, hopt => by
    have h' : (b.optional = true → ∀ x ∈ l, x.optional = true) ∧
        noRequiredAfterOptional l := h
    cases l with
    | nil =>
      rcases List.mem_singleton.mp ha with rfl
      exact ⟨a, by simp, hopt⟩
    | cons c l' =>
      rw [List.getLast?_cons_cons]
      rcases List.mem_cons.mp ha with rfl | ha'
      · have hall := h'.1 hopt
        have hne : (c :: l') ≠ ([] : List PosArg) := by simp
        exact ⟨(c :: l').getLast hne, List.getLast?_eq_getLast _ hne,
          hall _ (List.getLast_mem hne)⟩
      · exact nrao_last (c :: l') h'.2 a ha' hopt

/-- A successful `addposarg` call appends the argument. -/
theorem addposarg_ok_shape {l : List PosArg} {p : PosArg} {l' : List PosArg}
    (h : addposarg l p = Except.ok l') : l' = l ++ [p] := by
  unfold addposarg at h
  cases hl : l.getLast? with
  | none =>
    rw [hl] at h
    exact (Except.ok.inj h).symm
  | some last =>
    rw [hl] at h
    dsimp only at h
    split_ifs at h with h1 h2
    · exact (Except.ok.inj h).symm

/-- A successful `addposarg` call passed both checks on the current last
element. -/
theorem addposarg_ok_conds {l : List PosArg} {p : PosArg} {l' : List PosArg}
    (h : addposarg l p = Except.ok l') :
    ∀ last, l.getLast? = some last →
      (last.recurring = false ∧ (last.optional = true → p.optional = true)) := by
  intro last hl
  unfold addposarg at h
  rw [hl] at h
  dsimp only at h
  split_ifs at h with h1 h2
  refine ⟨eq_false_of_ne_true h1, fun ho => ?_⟩
  by_contra hp
  exact h2 (by simp [ho, Bool.not_eq_true] at hp ⊢; exact hp)

/-- Every reachable positional-argument list satisfies both registration
invariants. -/
theorem reachable_inv {l : List PosArg} (h : ReachablePosArgs l) :
    noneFollowsRecurring l ∧ noRequiredAfterOptional l := by
  induction h with
  | nil => exact ⟨trivial, trivial⟩
  | step hr hok ih =>
    rename_i l p l'
    obtain rfl := addposarg_ok_shape hok
    have hconds := addposarg_ok_conds hok
    refine ⟨(nfr_snoc p l).mpr ⟨ih.1, fun a ha => (hconds a ha).1⟩,
      (nrao_snoc p l).mpr ⟨ih.2, ?_⟩⟩
    intro a ha ho
    obtain ⟨last, hlast, hoptlast⟩ := nrao_last l ih.2 a ha ho
    exact (hconds last hlast).2 hoptlast

/-- An `addposarg` call that would break an invariant is rejected. -/
theorem addposarg_complete {l : List PosArg} (p : PosArg)
    (hinv : noneFollowsRecurring l ∧ noRequiredAfterOptional l)
    (hviol : ¬ (noneFollowsRecurring (l ++ [p]) ∧ noRequiredAfterOptional (l ++ [p]))) :
    ∃ msg, addposarg l p = Except.error msg := by
  cases hok : addposarg l p with
  | error msg => exact ⟨msg, rfl⟩
  | ok l' =>
    obtain rfl := addposarg_ok_shape hok
    have hconds := addposarg_ok_conds hok
    refine absurd ⟨(nfr_snoc p l).mpr ⟨hinv.1, fun a ha => (hconds a ha).1⟩,
      (nrao_snoc p l).mpr ⟨hinv.2, ?_⟩⟩ hviol
    intro a ha ho
    obtain ⟨last, hlast, hoptlast⟩ := nrao_last l hinv.2 a ha ho
    exact (hconds last hlast).2 hoptlast

/-- The `nargs > 1` parse loop of `Format.parse` consumes exactly one
token per value when every token of the prefix is valid and not special,
and delivers the parsed values in order. -/
theorem fmtParseLoop_ok (f : Fmt) : ∀ (pre : List String) (post : List String) (acc : List PyVal),
    (∀ t ∈ pre, t ∉ f.lsAcceptedSpecials ∧ ∃ v, f.cParser t = Except.ok v) →
    ∃ vs, fmtParseLoop f pre.length (pre ++ post) acc = (Except.ok (acc ++ vs), post)
  | [], post, acc, _ => ⟨[], by simp [fmtParseLoop]⟩
  | t :: pre, post, acc, h => by
    obtain ⟨hs, v, hv⟩ := h t (List.mem_cons_self _ _)
    obtain ⟨vs, hvs⟩ := fmtParseLoop_ok f pre post (acc ++ [v])
      (fun x hx => h x (List.mem_cons_of_mem _ hx))
    refine ⟨v :: vs, ?_⟩
    simp only [List.length_cons, List.cons_append, fmtParseLoop, if_neg hs, hv,
      List.append_eq]
    rw [hvs]
    simp

/-! ## Claim theorems -/

/-- C1: the claim fails on the code — the flags-first abbreviation block
`-abc` does not parse.  `Parameter.nargs` yields the format accessor
uncalled, so the `!= 0` test at line 1316 is true for every character,
and every abbreviation block of two or more characters raises
`BadAbbreviationBlock` naming its first character and the block —
contrary to the claim, to the comment at line 1314 and to the
`BadAbbreviationBlock` docstring (the older tree under `src/src` calls
`.nargs() != 0` and behaves as the claim says).  `-cab` errors on `c` as
the claim states, but through the same broken comparison; a
single-character block still parses. -/
theorem tui_c1_block_validation_broken :
    (tuiParseoptions (abbrevReg (PyVal.bool true) (PyVal.bool true) intFmt)
        ["-abc", "5"] "Command line.").fst
      = Except.error (TuiErr.badAbbreviationBlock "a" "abc"
          "options that require value arguments must be last in abbreviation blocks")
    ∧ (tuiParseoptions (abbrevReg (PyVal.bool true) (PyVal.bool true) intFmt)
        ["-cab", "5"] "Command line.").fst
      = Except.error (TuiErr.badAbbreviationBlock "c" "cab"
          "options that require value arguments must be last in abbreviation blocks")
    ∧ tuiParseoptions (abbrevReg (PyVal.bool true) (PyVal.bool true) intFmt)
        ["-a"] "Command line."
      = (Except.ok
          [ { name := "alpha", abbreviation := some "a", recurring := false, reserved := false,
              fmt := flagFmt (PyVal.bool true), value := PyVal.bool true,
              location := "Command line." },
            { name := "beta", abbreviation := some "b", recurring := false, reserved := false,
              fmt := flagFmt (PyVal.bool true), value := PyVal.bool false,
              location := "Builtin default." },
            { name := "gamma", abbreviation := some "c", recurring := false, reserved := false,
              fmt := intFmt, value := PyVal.int 0,
              location := "Builtin default." } ], []) :=
  ⟨rfl, rfl, rfl⟩


/-- C2 counterexample: feeding the recurring option `tag` two successive
config values through `Option.parsestr` (as `parsefiles` does per config
source) leaves the value list `[a, b]` — the second value did not replace
the first, so config recurrence accumulates, contradicting the claim. -/
theorem tui_c2_counterexample :
    (tagAfterFirst.parsestr "b" "tag" "file2 [sec]").snd.value
        = PyVal.list [PyVal.str "a", PyVal.str "b"]
    ∧ PyVal.list [PyVal.str "a", PyVal.str "b"] ≠ PyVal.list [PyVal.str "b"] :=
  ⟨rfl, by simp⟩

/-- C2 (amended): a config value fed to a recurring option through
`Option.parsestr` is appended to its value list — config recurrence
accumulates exactly like command-line recurrence; for a non-recurring
option a later config value replaces the current one. -/
theorem tui_c2_config_append (o : OptionR) (l : List PyVal) (s u loc : String) (v : PyVal)
    (hp : o.fmt.parsestr s = Except.ok v) :
    (o.recurring = true → o.value = PyVal.list l →
      o.parsestr s u loc
        = (Except.ok (), { o with value := PyVal.list (l ++ [v]), location := loc })) ∧
    (o.recurring = false →
      o.parsestr s u loc = (Except.ok (), { o with value := v, location := loc })) := by
  constructor
  · intro hrec hval
    simp [OptionR.parsestr, hp, hrec, hval]
  · intro hrec
    simp [OptionR.parsestr, hp, hrec]

/-- C2 witness: the amended theorem evaluated at the recurring `tag`
option receiving its first config value. -/
theorem tui_c2_witness :
    tagOpt.parsestr "a" "tag" "file1 [sec]"
      = (Except.ok (),
         { tagOpt with value := PyVal.list [PyVal.str "a"], location := "file1 [sec]" }) :=
  (tui_c2_config_append tagOpt [] "a" "tag" "file1 [sec]" (PyVal.str "a") rfl).1 rfl rfl

/-- C3: a non-recurring option given twice in one `_parseoptions` pass
raises `OptionRecurrenceError`; and because the recurrence list starts
empty on every call and never consults previously stored values, the same
option already holding an arbitrary config-file-set value and provenance
parses a single command-line occurrence without error. -/
theorem tui_c3_option_recurrence (v0 : PyVal) (loc0 : String) :
    (tuiParseoptions (fooReg (PyVal.int 0) "Builtin default.")
        ["--foo", "1", "--foo", "2"] "Command line.").fst
      = Except.error (TuiErr.optionRecurrenceError "foo")
    ∧ tuiParseoptions (fooReg v0 loc0) ["--foo", "1"] "Command line."
      = (Except.ok
          [ { name := "foo", abbreviation := Option.none, recurring := false, reserved := false,
              fmt := intFmt, value := PyVal.int 1, location := "Command line." } ], []) :=
  ⟨rfl, rfl⟩

/-- C3 witness: the recurrence theorem evaluated at an option previously
set from a config file. -/
theorem tui_c3_witness :
    tuiParseoptions (fooReg (PyVal.int 99) "myprog.conf [main]") ["--foo", "1"] "Command line."
      = (Except.ok
          [ { name := "foo", abbreviation := Option.none, recurring := false, reserved := false,
              fmt := intFmt, value := PyVal.int 1, location := "Command line." } ], []) :=
  (tui_c3_option_recurrence (PyVal.int 99) "myprog.conf [main]").2

/-- C4: feeding `parsefiles` a section that assigns the registered
reserved option `flag` raises `TypeError` — the source calls
`self.options[name].reserved()` although `reserved` is a bool attribute —
instead of the reserved-for-command-line error the claim (and the
template string of `ReservedOptionError`) describe; a key naming no
registered option, not used for formatting and not ignore-listed, does
raise the unknown-parameter error (`InvalidOption`). -/
theorem tui_c4_parsefiles_reserved :
    parsefiles c4Reg [] ["sec"] [c4File]
      = Except.error (TuiErr.pyTypeError "bool object is not callable")
    ∧ parsefiles c4Reg [] ["sec"] [c4FileUnknown]
      = Except.error (TuiErr.invalidOption "nosuch") :=
  ⟨rfl, rfl⟩

/-- C5: a format requiring `N >= 1` arguments parses a token list whose
first `N` tokens are valid and not special by consuming exactly those `N`
tokens, and rejects any shorter token list with the argument-count error
carrying the required count `N` and the number of tokens available. -/
theorem tui_c5_format_parse_nargs (f : Fmt) (pre post short : List String)
    (h1 : 1 ≤ f.iNArgs) (hlen : pre.length = f.iNArgs)
    (hvalid : ∀ t ∈ pre, t ∉ f.lsAcceptedSpecials ∧ ∃ v, f.cParser t = Except.ok v)
    (hshort : short.length < f.iNArgs) :
    (∃ v, f.parse (pre ++ post) = (Except.ok v, post)) ∧
    f.parse short
      = (Except.error (FmtErr.badNumberOfArgumentsError f.iNArgs short.length), short) := by
  constructor
  · have hge : ¬ (pre ++ post).length < f.iNArgs := by
      rw [List.length_append, hlen]
      omega
    by_cases hone : f.iNArgs = 1
    · have hpre1 : pre.length = 1 := by omega
      obtain ⟨t, rfl⟩ : ∃ t, pre = [t] := by
        match pre, hpre1 with
        | [t], _ => exact ⟨t, rfl⟩
      obtain ⟨hs, v, hv⟩ := hvalid t (List.mem_cons_self _ _)
      refine ⟨v, ?_⟩
      simp [Fmt.parse, hge, hone, if_neg hs, hv]
    · have htwo : ¬ f.iNArgs = 0 := by omega
      obtain ⟨vs, hvs⟩ := fmtParseLoop_ok f pre post [] hvalid
      rw [hlen] at hvs
      refine ⟨PyVal.list vs, ?_⟩
      rw [Fmt.parse.eq_def, if_neg hge, if_neg htwo, if_neg hone, hvs]
      simp
  · have hlt : short.length < f.iNArgs := hshort
    rw [Fmt.parse.eq_def, if_pos hlt]

/-- C5 witness: the `Int` format consumes its one valid token and leaves
the rest, and rejects an empty token list with required 1, given 0. -/
theorem tui_c5_witness :
    (∃ v, intFmt.parse (["7"] ++ ["x"]) = (Except.ok v, ["x"])) ∧
    intFmt.parse [] = (Except.error (FmtErr.badNumberOfArgumentsError 1 0), []) :=
  tui_c5_format_parse_nargs intFmt ["7"] ["x"] [] (by decide) rfl
    (by
      intro t ht
      simp only [List.mem_singleton] at ht
      subst ht
      exact ⟨by simp [intFmt], ⟨PyVal.int 7, rfl⟩⟩)
    (by decide)

/-- C6: on an empty token list, an optional recurring positional argument
stores `None`, not the empty list the claim (and the docstring of
`PositionalArgument.parse`) promise: the Python idiom
`self.recurring and [] or None` always yields `None` because the empty
list is falsy. -/
theorem tui_c6_optional_recurring_none :
    c6Pos.parse [] = some (Except.ok (), { c6Pos with value := PyVal.none }, [])
    ∧ PyVal.none ≠ PyVal.list [] :=
  ⟨rfl, by simp⟩

/-- C7: the special literal `-` of a two-argument format does not bypass
the parser: `Format.parse` feeds it to the coercion callback anyway (the
`nargs > 1` loop lacks the `else`), so an `Int`-style pair format raises
`BadArgumentError` on the special token, and with a parser that accepts
the token the value list receives both the raw special and the parsed
value (three values for `nargs = 2`); the claim that specials always
short-circuit past coercion and validation holds only in the
one-argument branch. -/
theorem tui_c7_specials_not_bypassed :
    ("-" ∈ c7Fmt.lsAcceptedSpecials)
    ∧ c7Fmt.parse ["-", "3"]
      = (Except.error (FmtErr.badArgumentError "-" "cannot transform it to integer"), ["3"])
    ∧ strPairFmt.parse ["-", "x"]
      = (Except.ok (PyVal.list [PyVal.str "-", PyVal.str "-", PyVal.str "x"]), []) :=
  ⟨by simp [c7Fmt, intPairFmt], rfl, rfl⟩

/-- C8 counterexample: the `Int` format parses the valid non-special
token `007` but renders the parsed value back as `7`, which differs from
the original token by more than whitespace-insensitive quoting. -/
theorem tui_c8_counterexample :
    intFmt.parse ["007"] = (Except.ok (PyVal.int 7), [])
    ∧ intFmt.strvalue (PyVal.int 7) = some "7"
    ∧ ("7" : String) ≠ "007" :=
  ⟨rfl, rfl, by decide⟩

/-- C8 (amended): rendering reproduces the original token only for
formats whose presenter inverts their parser; for the `String` format
with the default presenter, parsing a whitespace-free token and rendering
the value gives back exactly that token (tokens with whitespace are
re-quoted by the presenter); numeric formats canonicalize token text, so
the round trip holds only up to that canonicalization. -/
theorem tui_c8_roundtrip_string (t : String)
    (hws : t.data.all (fun c => !c.isWhitespace) = true) :
    stringFmt.parse [t] = (Except.ok (PyVal.str t), [])
    ∧ stringFmt.strvalue (PyVal.str t) = some t := by
  constructor
  · rfl
  · have hany : t.data.any Char.isWhitespace = false := by
      rw [List.any_eq_false]
      intro c hc
      have := List.all_eq_true.mp hws c hc
      simpa using this
    simp [Fmt.strvalue, stringFmt, default_presenter, pyStr, hany]

/-- C8 witness: the round trip evaluated at the token `abc`. -/
theorem tui_c8_witness :
    stringFmt.parse ["abc"] = (Except.ok (PyVal.str "abc"), [])
    ∧ stringFmt.strvalue (PyVal.str "abc") = some "abc" :=
  tui_c8_roundtrip_string "abc" (by decide)

/-- C9: every positional-argument list reachable through successful
`addposarg` calls satisfies both registration invariants (no argument
follows a recurring one, no required argument follows an optional one);
success preserves reachability, and a call whose append would violate
either invariant is rejected at registration time with a configuration
error (`ValueError`), the embedded error result carrying no updated
list. -/
theorem tui_c9_posarg_invariants (l : List PosArg) (p : PosArg) (h : ReachablePosArgs l) :
    (noneFollowsRecurring l ∧ noRequiredAfterOptional l)
    ∧ (∀ l', addposarg l p = Except.ok l' → ReachablePosArgs l')
    ∧ (¬ (noneFollowsRecurring (l ++ [p]) ∧ noRequiredAfterOptional (l ++ [p])) →
        ∃ msg, addposarg l p = Except.error msg) :=
  ⟨reachable_inv h,
   fun _ hok => ReachablePosArgs.step h hok,
   fun hviol => addposarg_complete p (reachable_inv h) hviol⟩

/-- C9 witness: the invariant theorem applied to the reachable list
`[required, optional]` and a second required argument, whose registration
is rejected. -/
theorem tui_c9_witness :
    (noneFollowsRecurring [reqPos, optPos] ∧ noRequiredAfterOptional [reqPos, optPos])
    ∧ (∃ msg, addposarg [reqPos, optPos] reqPos = Except.error msg) := by
  have hreach : ReachablePosArgs [reqPos, optPos] :=
    ReachablePosArgs.step
      (@ReachablePosArgs.step [] reqPos [reqPos] ReachablePosArgs.nil rfl) rfl
  have h := tui_c9_posarg_invariants [reqPos, optPos] reqPos hreach
  refine ⟨h.1, h.2.2 ?_⟩
  rintro ⟨-, hno⟩
  have h' : (reqPos.optional = true → ∀ b ∈ [optPos, reqPos], b.optional = true) ∧
      (optPos.optional = true → ∀ b ∈ [reqPos], b.optional = true) ∧ True :=
    ⟨hno.1, hno.2.1, trivial⟩
  have := h'.2.1 rfl reqPos (by simp)
  simp [reqPos] at this

/-- C10: the claim fails on the code — a format error is never re-raised
as the wrong-argument-count or bad-argument error carrying the used name:
the except clauses of `Option.parse` and `Option.parsestr` name
`formats.BadNumberOfArguments` and `formats.BadArgument`, which do not
exist in `src/tui/formats.py`, so evaluating the first clause raises
`AttributeError`, and that is what propagates to the caller (even the
intended clause bodies read `e.required`, `e.supplied`, `e.argument` as
attributes although the format error classes expose them as accessor
methods).  The part of the claim that does hold is visible in the
evaluation: the exception occurs before any assignment, so the returned
option state is exactly the input option, its `value` and `location`
untouched. -/
theorem tui_c10_format_error_attributeerror :
    numOpt.parse ["x"] "num" "Command line."
      = (Except.error
          (TuiErr.pyAttributeError "module object has no attribute BadNumberOfArguments"),
         numOpt, [])
    ∧ numOpt.parsestr "x" "num" "myprog.conf [main]"
      = (Except.error
          (TuiErr.pyAttributeError "module object has no attribute BadNumberOfArguments"),
         numOpt) :=
  ⟨rfl, rfl⟩
